import Mathlib

/-!
Verification of the CourierQuest simulation engine (`api v2.py`).

The Python source is shallowly embedded: Python floats become `ℚ`
(the numeric literals of the source are exact decimals), Python ints
become `ℤ`/`ℕ`, Python lists become `List`, `None`-able values become
`Option`, and methods of the `CourierQuest` class become functions on an
explicit `Game` state record.  Field and function names follow the
source.  Note that the source defines `handle_input` twice in the class
body (lines 2048 and 3077); per Python semantics the later definition is
the one in effect, and it is the one embedded here.
-/

namespace CourierQuest

/-- `Position` dataclass: integer grid coordinates. -/
structure Position where
  x : ℤ
  y : ℤ
deriving DecidableEq, Repr

/-- `Order` dataclass, fields as in the source. -/
structure Order where
  id : String
  pickup : Position
  dropoff : Position
  payout : ℤ
  duration_minutes : ℚ
  weight : ℤ
  priority : ℤ
  release_time : ℤ
  status : String := "waiting_release"
  created_at : ℚ := 0
  accepted_at : ℚ := 0
deriving DecidableEq, Repr

/-- One entry of the map legend: a Python dict with optional keys
`blocked`, `surface_weight`, `rest_bonus`; a missing key is `none`. -/
structure TileInfo where
  blocked : Option Bool := none
  surface_weight : Option ℚ := none
  rest_bonus : Option ℚ := none
deriving DecidableEq, Repr

/-- `legend.get(tile_type, {})`: association-list lookup with the empty
dict as default. -/
def legendGet (legend : List (String × TileInfo)) (tile_type : String) : TileInfo :=
  ((legend.lookup tile_type).getD {})

/-- The `EnhancedWeatherSystem` state. `smooth_progress` carries the
value `(1 - cos(pi * progress)) / 2` that the source computes from the
wall clock during a transition; it is transcendental, so it is carried
as part of the state rather than recomputed.  Every state examined by
the theorems below has `transitioning = false`, where this field is
unused. -/
structure WeatherSystem where
  current_condition : String
  current_intensity : ℚ
  transitioning : Bool := false
  previous_condition : String := "clear"
  target_condition : String := "clear"
  smooth_progress : ℚ := 0
deriving DecidableEq, Repr

/-- `EnhancedWeatherSystem.SPEED_MULTIPLIERS` dictionary. -/
def SPEED_MULTIPLIERS (c : String) : ℚ :=
  if c = "clear" then 1.00
  else if c = "clouds" then 0.98
  else if c = "rain_light" then 0.90
  else if c = "rain" then 0.85
  else if c = "storm" then 0.75
  else if c = "fog" then 0.88
  else if c = "wind" then 0.92
  else if c = "heat" then 0.90
  else if c = "cold" then 0.92
  else 1

/-- `EnhancedWeatherSystem.get_speed_multiplier`. -/
def get_speed_multiplier (ws : WeatherSystem) : ℚ :=
  let base_mult :=
    if ws.transitioning then
      let prev_mult := SPEED_MULTIPLIERS ws.previous_condition
      let target_mult := SPEED_MULTIPLIERS ws.target_condition
      prev_mult + (target_mult - prev_mult) * ws.smooth_progress
    else SPEED_MULTIPLIERS ws.current_condition
  base_mult * (1.0 - ws.current_intensity * 0.2)

/-- The mutable state of the `CourierQuest` engine object (the fields
the embedded methods read or write).  `first_late_penalty_applied`
models `hasattr(self, '_first_late_penalty_applied')`. -/
structure Game where
  player_pos : Position
  stamina : ℚ := 100.0
  max_stamina : ℚ := 100.0
  reputation : ℤ := 70
  money : ℤ := 0
  max_weight : ℤ := 10
  base_speed : ℚ := 3.0
  game_time : ℚ := 0.0
  max_game_time : ℚ := 600.0
  city_width : ℤ := 30
  city_height : ℤ := 25
  tiles : List (List String) := []
  legend : List (String × TileInfo) := []
  goal : ℤ := 3000
  weather_system : WeatherSystem
  pending_orders : List Order := []
  available_orders : List Order := []
  inventory : List Order := []
  completed_orders : List Order := []
  delivery_streak : ℤ := 0
  last_delivery_was_clean : Bool := true
  first_late_penalty_applied : Bool := false
  paused : Bool := false
  game_over : Bool := false
  move_cooldown : ℚ := 0.08
  last_move_time : ℚ := 0
deriving DecidableEq, Repr

/-- The guarded tile lookup `self.tiles[y][x]` used after the
`y < len(self.tiles) and x < len(self.tiles[y])` check.  Every call site
has already established `0 ≤ x` and `0 ≤ y` (so Python's negative
indexing never triggers there). -/
def tileTypeAt (tiles : List (List String)) (x y : ℤ) : Option String :=
  if y.toNat < tiles.length ∧ x.toNat < (tiles.getD y.toNat []).length then
    some ((tiles.getD y.toNat []).getD x.toNat "")
  else none

/-- `tile_info.get("blocked", False)` at a position, `False` when the
tile-index guard fails (the source then skips the check). -/
def tileBlockedAt (g : Game) (pos : Position) : Bool :=
  match tileTypeAt g.tiles pos.x pos.y with
  | some tile_type => ((legendGet g.legend tile_type).blocked.getD false)
  | none => false

/-- `tile_info.get("surface_weight", 1.0)` at a position, `1.0` when
the tile-index guard fails (the source then leaves the default). -/
def surfaceWeightAt (g : Game) (pos : Position) : ℚ :=
  match tileTypeAt g.tiles pos.x pos.y with
  | some tile_type => ((legendGet g.legend tile_type).surface_weight.getD 1.0)
  | none => 1.0

/-- `sum(order.weight for order in self.inventory)`. -/
def totalWeight (inventory : List Order) : ℤ :=
  (inventory.map (·.weight)).sum

/-- `CourierQuest.calculate_stamina_cost`. -/
def calculate_stamina_cost (g : Game) : ℚ :=
  let base_cost : ℚ := 0.5
  let total_weight := totalWeight g.inventory
  let base_cost :=
    if 3 < total_weight then base_cost + 0.2 * ((total_weight : ℚ) - 3) else base_cost
  let base_cost :=
    if g.weather_system.current_condition = "rain" ∨
       g.weather_system.current_condition = "wind" then base_cost + 0.1
    else if g.weather_system.current_condition = "storm" then base_cost + 0.3
    else if g.weather_system.current_condition = "heat" then base_cost + 0.2
    else base_cost
  let surface_weight := surfaceWeightAt g g.player_pos
  if surface_weight < 1.0 then base_cost + (1.0 - surface_weight) * 0.2 else base_cost

/-- `CourierQuest.calculate_actual_speed`. -/
def calculate_actual_speed (g : Game) : ℚ :=
  if g.stamina ≤ 0 then 0.0
  else
    let v0 := g.base_speed
    let M_clima := get_speed_multiplier g.weather_system
    let total_weight := totalWeight g.inventory
    let M_peso := max 0.8 (1.0 - 0.03 * (total_weight : ℚ))
    let M_rep : ℚ := if 90 ≤ g.reputation then 1.03 else 1.0
    let M_resistencia : ℚ := if g.stamina ≤ 30 then 0.8 else 1.0
    let surface_weight := surfaceWeightAt g g.player_pos
    max 0.0 (v0 * M_clima * M_peso * M_rep * M_resistencia * surface_weight)

/-- `CourierQuest.is_valid_move`. -/
def is_valid_move (g : Game) (pos : Position) : Bool :=
  if ¬(0 ≤ pos.x ∧ pos.x < g.city_width ∧ 0 ≤ pos.y ∧ pos.y < g.city_height) then false
  else if tileBlockedAt g pos then false
  else if g.stamina ≤ 0 then false
  else decide (calculate_stamina_cost g ≤ g.stamina)

/-- `CourierQuest.move_player` (game messages are not modelled). -/
def move_player (g : Game) (new_pos : Position) : Game :=
  if g.stamina ≤ 0 then g
  else
    let stamina_cost := calculate_stamina_cost g
    if g.stamina < stamina_cost then g
    else { g with player_pos := new_pos, stamina := max 0 (g.stamina - stamina_cost) }

/-- `CourierQuest.handle_input` — the second (effective) definition at
source line 3077.  The pressed arrow keys are abstracted to the chosen
`direction` pair; game messages and the wall-clock message throttle are
not modelled. -/
def handle_input (g : Game) (dt : ℚ) (direction : ℤ × ℤ) : Game :=
  if g.paused ∨ g.game_over then g
  else if g.stamina ≤ 0 then g
  else
    let actual_speed := calculate_actual_speed g
    let adjusted_cooldown := g.move_cooldown / max 0.1 (actual_speed / g.base_speed)
    let g := { g with last_move_time := g.last_move_time + dt }
    if g.last_move_time < adjusted_cooldown then g
    else if direction = (0, 0) then g
    else
      let new_pos : Position :=
        ⟨g.player_pos.x + direction.1, g.player_pos.y + direction.2⟩
      if is_valid_move g new_pos then
        { move_player g new_pos with last_move_time := 0 }
      else g

/-- `CourierQuest.get_order_time_remaining`. -/
def get_order_time_remaining (g : Game) (order : Order) : ℚ :=
  if order.status = "waiting_release" then order.duration_minutes * 60
  else
    let elapsed_since_created := g.game_time - order.created_at
    let total_duration_seconds := order.duration_minutes * 60
    max 0 (total_duration_seconds - elapsed_since_created)

/-- Python `int(q)`: truncation toward zero. -/
def pyInt (q : ℚ) : ℤ :=
  if 0 ≤ q then ⌊q⌋ else ⌈q⌉

/-- The reputation-rule chain of `CourierQuest.deliver_order`: returns
`(rep_change, delivery_was_clean)` from `time_remaining` and
`total_duration` (the source computes `time_used` as their difference). -/
def deliverRepChange (time_remaining total_duration : ℚ) : ℤ × Bool :=
  let time_used := total_duration - time_remaining
  if total_duration * 0.8 < time_remaining then (5, true)
  else if total_duration * 0.3 < time_remaining then (3, true)
  else if 0 < time_remaining then
    if time_used ≤ 30 then (-2, false)
    else if time_used ≤ 120 then (-5, false)
    else (-10, false)
  else (-10, false)

/-- `CourierQuest.deliver_order`.  Python's `//` on integers is floor
division, `Int.fdiv`.  Removing the delivered order from the inventory
removes the first element equal to it (`deque.remove` uses dataclass
equality; the mutation of `order.status` happens on the very object
stored in the deque, so in value terms the pre-mutation value is
removed). -/
def deliver_order (g : Game) (order : Order) : Game :=
  let time_remaining := get_order_time_remaining g order
  let total_duration := order.duration_minutes * 60
  let rc := deliverRepChange time_remaining total_duration
  let delivery_was_clean := rc.2
  let reduced :=
    rc.1 < 0 ∧ 85 ≤ g.reputation ∧ ¬g.first_late_penalty_applied
  let rep_change := if reduced then Int.fdiv rc.1 2 else rc.1
  let reputation := max 0 (min 100 (g.reputation + rep_change))
  let streak_step :=
    if delivery_was_clean ∧ g.last_delivery_was_clean then
      let s := g.delivery_streak + 1
      if s = 3 then (0, min 100 (reputation + 2)) else (s, reputation)
    else
      (if ¬delivery_was_clean then 0 else g.delivery_streak, reputation)
  let delivery_streak := streak_step.1
  let reputation := streak_step.2
  let payout :=
    if 90 ≤ reputation then pyInt ((order.payout : ℚ) * 1.05) else order.payout
  { g with
    reputation := reputation
    delivery_streak := delivery_streak
    last_delivery_was_clean := delivery_was_clean
    first_late_penalty_applied := if reduced then true else g.first_late_penalty_applied
    money := g.money + payout
    inventory := g.inventory.erase order
    completed_orders := g.completed_orders ++ [{ order with status := "delivered" }] }

/-- `CourierQuest._check_expired_orders`.  The source iterates over
copies of the containers, removes each expired order from the live
container, and then applies the per-order penalty loop. -/
def check_expired_orders (g : Game) : Game :=
  let expiredAvailable :=
    g.available_orders.filter (fun o => get_order_time_remaining g o ≤ 0)
  let available_orders :=
    expiredAvailable.foldl (fun l o => l.erase o) g.available_orders
  let expiredInventory :=
    g.inventory.filter (fun o => get_order_time_remaining g o ≤ 0)
  let inventory :=
    expiredInventory.foldl (fun l o => l.erase o) g.inventory
  let expired_orders := expiredAvailable ++ expiredInventory
  expired_orders.foldl
    (fun st _ =>
      { st with
        reputation := st.reputation - 6
        delivery_streak := 0
        last_delivery_was_clean := false })
    { g with available_orders := available_orders, inventory := inventory }

/-- `CourierQuest._is_position_walkable`. -/
def is_position_walkable (g : Game) (x y : ℤ) : Bool :=
  if ¬(0 ≤ x ∧ x < g.city_width ∧ 0 ≤ y ∧ y < g.city_height) then false
  else
    match tileTypeAt g.tiles x y with
    | some tile_type => !((legendGet g.legend tile_type).blocked.getD false)
    | none => true

/-- The border cells visited by the two nested `for dx / for dy` loops
of `_find_nearest_walkable_position` for one radius, in source order. -/
def ringCells (x y : ℤ) (radius : ℕ) : List (ℤ × ℤ) :=
  ((List.range (2 * radius + 1)).flatMap (fun i =>
    (List.range (2 * radius + 1)).map (fun j =>
      (x + (i : ℤ) - radius, y + (j : ℤ) - radius)))).filter
    (fun c => (c.1 - x).natAbs = radius ∨ (c.2 - y).natAbs = radius)

/-- `CourierQuest._find_nearest_walkable_position`: expanding-ring
search, then a full row-major scan, then the fixed `(1, 1)` fallback. -/
def find_nearest_walkable_position (g : Game) (x y : ℤ) : Position :=
  let maxRadius := (min g.city_width.toNat g.city_height.toNat) / 2
  let ringHit :=
    ((List.range' 1 (maxRadius - 1)).flatMap (fun radius => ringCells x y radius)).find?
      (fun c => is_position_walkable g c.1 c.2)
  match ringHit with
  | some c => ⟨c.1, c.2⟩
  | none =>
    let gridHit :=
      ((List.range g.city_height.toNat).flatMap (fun ty =>
        (List.range g.city_width.toNat).map (fun tx => ((tx : ℤ), (ty : ℤ))))).find?
        (fun c => is_position_walkable g c.1 c.2)
    match gridHit with
    | some c => ⟨c.1, c.2⟩
    | none => ⟨1, 1⟩

/-- `CourierQuest._validate_order_positions` (the log prints are not
modelled). -/
def validate_order_positions (g : Game) (order : Order) : Bool :=
  is_position_walkable g order.pickup.x order.pickup.y &&
    is_position_walkable g order.dropoff.x order.dropoff.y

/-- `CourierQuest._fix_order_positions`. -/
def fix_order_positions (g : Game) (order : Order) : Order :=
  let order :=
    if is_position_walkable g order.pickup.x order.pickup.y then order
    else { order with pickup := find_nearest_walkable_position g order.pickup.x order.pickup.y }
  if is_position_walkable g order.dropoff.x order.dropoff.y then order
  else { order with dropoff := find_nearest_walkable_position g order.dropoff.x order.dropoff.y }

/-- The binary-search loop of `OptimizedPriorityQueue.enqueue`:
`while left < right: mid = (left+right)//2; if items[mid].priority <
item.priority: right = mid else: left = mid + 1`.  The loop shrinks
`right - left` every iteration, so running it with `fuel ≥ right - left`
computes the exact result of the source loop; `enqueue` passes
`fuel = len(items)`. -/
def bsearchLoop (prios : List ℤ) (p : ℤ) : ℕ → ℕ → ℕ → ℕ
  | 0, left, _ => left
  | fuel + 1, left, right =>
    if left < right then
      let mid := (left + right) / 2
      if prios.getD mid 0 < p then bsearchLoop prios p fuel left mid
      else bsearchLoop prios p fuel (mid + 1) right
    else left

/-- `OptimizedPriorityQueue.enqueue`. -/
def pq_enqueue (items : List Order) (item : Order) : List Order :=
  if items = [] then [item]
  else
    let left := bsearchLoop (items.map (·.priority)) item.priority items.length 0 items.length
    items.insertIdx left item

/-- `OptimizedPriorityQueue.dequeue`: returns the popped front (if any)
and the remaining items. -/
def pq_dequeue (items : List Order) : Option Order × List Order :=
  (items.head?, items.tail)

/-- `OptimizedPriorityQueue.remove`: `list.remove` drops the first
element equal to the argument (no-op when absent, where the source
catches `ValueError`). -/
def pq_remove (items : List Order) (order : Order) : List Order :=
  items.erase order

/-- The per-order body of the release loop: validate the pickup/dropoff
positions (fixing them if needed), then mark the order available with
`created_at = game_time`. -/
def releaseOrder (g : Game) (o : Order) : Order :=
  let o := if validate_order_positions g o then o else fix_order_positions g o
  { o with status := "available", created_at := g.game_time }

/-- The release `while` loop of `CourierQuest._process_order_releases`.
Returns the remaining backlog, the new active container, and the number
of orders released.  `budget` is `orders_to_release - released_count`;
`active` is `current_active_orders`; the map context and `game_time`
come from `g` (the loop does not change them). -/
def releaseLoop (g : Game) : List Order → List Order → ℕ → ℕ →
    List Order × List Order × ℕ
  | pending, avail, _, 0 => (pending, avail, 0)
  | [], avail, _, _ + 1 => ([], avail, 0)
  | o :: rest, avail, active, budget + 1 =>
    if (o.release_time : ℚ) ≤ g.game_time ∧ active < 10 then
      let r := releaseLoop g rest (pq_enqueue avail (releaseOrder g o)) (active + 1) budget
      (r.1, r.2.1, r.2.2 + 1)
    else (o :: rest, avail, 0)

/-- `MAX_ACTIVE_ORDERS = 10` and the batch-size tier chain of
`_process_order_releases` (Python `//` is `Nat` division here). -/
def releaseBatchSize (current_active_orders : ℕ) : ℕ :=
  if current_active_orders < 10 / 3 then 3
  else if current_active_orders < 10 / 2 then 2
  else if current_active_orders < 10 then 1
  else 0

/-- `CourierQuest._process_order_releases` (messages not modelled). -/
def process_order_releases (g : Game) : Game :=
  let current_active_orders := g.available_orders.length
  let orders_to_release := releaseBatchSize current_active_orders
  let r := releaseLoop g g.pending_orders g.available_orders current_active_orders
    orders_to_release
  { g with pending_orders := r.1, available_orders := r.2.1 }

/-- `GameState` dataclass (the snapshot used by history and saves). -/
structure GameState where
  player_pos : Position
  stamina : ℚ
  reputation : ℤ
  money : ℤ
  game_time : ℚ
  weather_time : ℚ
  current_weather : String
  weather_intensity : ℚ
  inventory : List Order
  available_orders : List Order
  completed_orders : List Order
  goal : ℤ
  delivery_streak : ℤ
  pending_orders : List Order
  city_width : ℤ
  city_height : ℤ
  tiles : List (List String)
  legend : List (String × TileInfo)
  city_name : String
  max_game_time : ℚ
deriving DecidableEq, Repr

/-- A sparse diff of `MemoryEfficientHistory`: a Python dict with the
four possible keys. -/
structure HistDiff where
  player_pos : Option (ℤ × ℤ) := none
  stamina : Option ℚ := none
  money : Option ℤ := none
  reputation : Option ℤ := none
deriving DecidableEq, Repr

/-- `MemoryEfficientHistory` state. -/
structure MemoryEfficientHistory where
  diffs : List HistDiff := []
  max_size : ℕ := 20
  base_state : Option GameState := none
deriving DecidableEq, Repr

/-- The diff computed by `MemoryEfficientHistory.push` against the base
snapshot. -/
def mkDiff (base state : GameState) : HistDiff :=
  { player_pos :=
      if base.player_pos.x ≠ state.player_pos.x ∨ base.player_pos.y ≠ state.player_pos.y
      then some (state.player_pos.x, state.player_pos.y) else none
    stamina := if 1.0 < |base.stamina - state.stamina| then some state.stamina else none
    money := if base.money ≠ state.money then some state.money else none
    reputation := if base.reputation ≠ state.reputation then some state.reputation else none }

/-- `MemoryEfficientHistory.push`: the first push only records the base
snapshot; later pushes append the diff when it is non-empty and then
drop the oldest diff (`self.diffs.pop(0)`) when the queue has reached
`max_size`. -/
def hist_push (h : MemoryEfficientHistory) (state : GameState) : MemoryEfficientHistory :=
  match h.base_state with
  | none => { h with base_state := some state }
  | some base =>
    let diff := mkDiff base state
    if diff ≠ ({} : HistDiff) then
      let diffs := h.diffs ++ [diff]
      { h with diffs := if h.max_size ≤ diffs.length then diffs.tail else diffs }
    else h

/-- The `GameState(...)` reconstruction performed by
`MemoryEfficientHistory.pop`: diffed values where present, base values
otherwise — except `delivery_streak`, which the source hard-codes to
`0`. -/
def hist_reconstruct (base : GameState) (diff : HistDiff) : GameState :=
  { player_pos :=
      match diff.player_pos with
      | some c => ⟨c.1, c.2⟩
      | none => ⟨base.player_pos.x, base.player_pos.y⟩
    stamina := diff.stamina.getD base.stamina
    reputation := diff.reputation.getD base.reputation
    money := diff.money.getD base.money
    game_time := base.game_time
    weather_time := base.weather_time
    current_weather := base.current_weather
    weather_intensity := base.weather_intensity
    inventory := base.inventory
    available_orders := base.available_orders
    completed_orders := base.completed_orders
    goal := base.goal
    delivery_streak := 0
    pending_orders := base.pending_orders
    city_width := base.city_width
    city_height := base.city_height
    tiles := base.tiles
    legend := base.legend
    city_name := base.city_name
    max_game_time := base.max_game_time }

/-- `MemoryEfficientHistory.pop`: `None` on an empty diff queue,
otherwise the reconstructed state together with the history after the
permanent removal of the popped diff.  (A non-empty queue with no base
snapshot is unreachable from the initial history and would raise in
Python; it is mapped to `none`.) -/
def hist_pop (h : MemoryEfficientHistory) :
    Option (GameState × MemoryEfficientHistory) :=
  match h.diffs.getLast?, h.base_state with
  | some diff, some base =>
    some (hist_reconstruct base diff, { h with diffs := h.diffs.dropLast })
  | _, _ => none

/-- The metadata dict written by
`RobustFileManager.save_game_with_validation`.  `saved_at` (an ISO
wall-clock string) is carried as the numeric `now`. -/
structure SaveMetadata where
  saved_at : ℚ
  game_time : ℚ
  player_position : ℤ × ℤ
  completion_percentage : ℚ
  city_info : String
deriving DecidableEq, Repr

/-- The versioned record pickled into `saves/slot{slot}.sav`. -/
structure SaveData where
  version : String
  timestamp : ℚ
  game_state : GameState
  metadata : SaveMetadata
deriving DecidableEq, Repr

/-- The save-slot directory, modelling the `saves/` folder: newest
record for a slot first. -/
def SaveStore := List (ℕ × SaveData)

/-- `RobustFileManager.save_game_with_validation` (pickling is modelled
as storing the record value; `now` models `time.time()` /
`datetime.now()`).  When `goal = 0` the `completion_percentage`
division raises `ZeroDivisionError`, the `except` branch returns
`False`, and nothing is written. -/
def save_game_with_validation (store : SaveStore) (game_state : GameState)
    (slot : ℕ) (now : ℚ) : SaveStore × Bool :=
  if game_state.goal = 0 then (store, false)
  else
    let save_data : SaveData :=
      { version := "3.1_map_fixed"
        timestamp := now
        game_state := game_state
        metadata :=
          { saved_at := now
            game_time := game_state.game_time
            player_position := (game_state.player_pos.x, game_state.player_pos.y)
            completion_percentage := ((game_state.money : ℚ) / (game_state.goal : ℚ)) * 100
            city_info := game_state.city_name ++ (" (") ++ toString game_state.city_width
              ++ ("x") ++ toString game_state.city_height ++ (")") } }
    ((slot, save_data) :: store, true)

/-- `RobustFileManager.load_game_with_validation`: `None` when the slot
file is absent; the `isinstance(save_data, dict)` and
`hasattr(game_state, 'city_width'/'city_height')` checks always pass
for records written by the typed `save_game_with_validation`. -/
def load_game_with_validation (store : SaveStore) (slot : ℕ) : Option GameState :=
  match store.lookup slot with
  | none => none
  | some save_data => some save_data.game_state

/-! ## Spec-side definitions

These definitions follow the wording of the specification (not the
source); the theorems below compare them with the embedded code. -/

/-- Spec §4.3: the fixed weather add-on per condition
(rain/wind 0.1, storm 0.3, heat 0.2, all other conditions 0). -/
def weatherFlatPenalty (c : String) : ℚ :=
  if c = "rain" ∨ c = "wind" then 0.1
  else if c = "storm" then 0.3
  else if c = "heat" then 0.2
  else 0

/-- Spec §4.3: `surfacePenalty = (1 − tileSurfaceWeight)×0.2` when the
surface weight is below 1.0, else nothing. -/
def surfacePenaltySpec (surface_weight : ℚ) : ℚ :=
  if surface_weight < 1.0 then (1.0 - surface_weight) * 0.2 else 0

/-- Spec §4.3: the per-move stamina cost formula
`0.5 + 0.2×max(0, totalCarriedWeight−3) + weatherFlatPenalty +
surfacePenalty`. -/
def specMoveCost (g : Game) : ℚ :=
  0.5 + 0.2 * max 0 ((totalWeight g.inventory : ℚ) - 3)
    + weatherFlatPenalty g.weather_system.current_condition
    + surfacePenaltySpec (surfaceWeightAt g g.player_pos)

/-- Spec §4.4: the delivery reputation-delta tier table, boundary
comparisons strict (timeUsed = totalDuration − timeRemaining). -/
def specRepDelta (timeRemaining totalDuration : ℚ) : ℤ :=
  if 0.8 * totalDuration < timeRemaining then 5
  else if 0.3 * totalDuration < timeRemaining then 3
  else if 0 < timeRemaining ∧ totalDuration - timeRemaining ≤ 30 then -2
  else if 0 < timeRemaining ∧ 30 < totalDuration - timeRemaining ∧
          totalDuration - timeRemaining ≤ 120 then -5
  else -10

/-! ## Concrete states used by scenario theorems and counterexamples -/

/-- A steady-state clear-weather process. -/
def wsClear : WeatherSystem :=
  { current_condition := "clear", current_intensity := 0 }

/-- A 5×5 all-street map: every tile is walkable with surface weight 1. -/
def streetLegend : List (String × TileInfo) :=
  [(("C"), { surface_weight := some 1.0 })]

/-- A small game on the 5×5 street map with empty containers. -/
def gBase : Game :=
  { player_pos := ⟨2, 2⟩
    weather_system := wsClear
    city_width := 5
    city_height := 5
    tiles := List.replicate 5 (List.replicate 5 ("C"))
    legend := streetLegend }

/-- C3.  Move validity and effect: the embedded per-move cost equals
the spec formula `0.5 + 0.2×max(0, w−3) + weatherFlat + surfacePenalty`;
a move is valid iff the target is in-bounds, its tile is not blocked,
stamina is positive and at least the cost; and a valid move sets the
position to the target and decreases stamina by exactly the cost,
staying ≥ 0. -/
theorem C3_move_validity_and_effect :
    (∀ g : Game, calculate_stamina_cost g = specMoveCost g)
    ∧ (∀ (g : Game) (pos : Position),
        is_valid_move g pos = true ↔
          (0 ≤ pos.x ∧ pos.x < g.city_width ∧ 0 ≤ pos.y ∧ pos.y < g.city_height)
          ∧ tileBlockedAt g pos = false
          ∧ 0 < g.stamina
          ∧ specMoveCost g ≤ g.stamina)
    ∧ (∀ (g : Game) (pos : Position), is_valid_move g pos = true →
        (move_player g pos).player_pos = pos
        ∧ (move_player g pos).stamina = g.stamina - calculate_stamina_cost g
        ∧ 0 ≤ (move_player g pos).stamina) := by
  have hcost : ∀ g : Game, calculate_stamina_cost g = specMoveCost g := by
    intro g
    have hmax : max (0:ℚ) ((totalWeight g.inventory : ℚ) - 3) =
        (if 3 < totalWeight g.inventory then ((totalWeight g.inventory : ℚ) - 3) else 0) := by
      split_ifs with h
      · refine max_eq_right ?_
        have : (3:ℚ) < (totalWeight g.inventory : ℚ) := by exact_mod_cast h
        linarith
      · refine max_eq_left ?_
        push_neg at h
        have : (totalWeight g.inventory : ℚ) ≤ 3 := by exact_mod_cast h
        linarith
    simp only [calculate_stamina_cost, specMoveCost, weatherFlatPenalty, surfacePenaltySpec]
    rw [hmax]
    split_ifs <;> ring
  refine ⟨hcost, ?_, ?_⟩
  · intro g pos
    by_cases hb : (0 ≤ pos.x ∧ pos.x < g.city_width ∧ 0 ≤ pos.y ∧ pos.y < g.city_height)
    all_goals cases hbl : tileBlockedAt g pos
    all_goals by_cases hst : g.stamina ≤ 0
    all_goals try have hst2 : ¬(0 < g.stamina) := not_lt.mpr hst
    all_goals try have hst2 : 0 < g.stamina := not_le.mp hst
    all_goals simp [is_valid_move, hb, hbl, hst, hst2, hcost]
  · intro g pos hvalid
    unfold is_valid_move at hvalid
    split_ifs at hvalid with h1 h2 h3
    simp only [decide_eq_true_eq] at hvalid
    simp only [move_player]
    rw [if_neg h3, if_neg (not_lt.mpr hvalid)]
    refine ⟨rfl, ?_, ?_⟩
    · show max 0 (g.stamina - calculate_stamina_cost g) = g.stamina - calculate_stamina_cost g
      exact max_eq_right (sub_nonneg.mpr hvalid)
    · show (0:ℚ) ≤ max 0 (g.stamina - calculate_stamina_cost g)
      exact le_max_left _ _

/-- Witness for `C3_move_validity_and_effect`: a concrete valid move on
the 5×5 street map, with its position and stamina effect. -/
theorem C3_move_validity_and_effect_witness :
    is_valid_move gBase ⟨3, 2⟩ = true
    ∧ (move_player gBase ⟨3, 2⟩).player_pos = ⟨3, 2⟩
    ∧ (move_player gBase ⟨3, 2⟩).stamina = gBase.stamina - calculate_stamina_cost gBase
    ∧ 0 ≤ (move_player gBase ⟨3, 2⟩).stamina := by
  have hv : is_valid_move gBase ⟨3, 2⟩ = true := by
    simp [is_valid_move, gBase, wsClear, streetLegend, tileBlockedAt, tileTypeAt,
      legendGet, calculate_stamina_cost, surfaceWeightAt, totalWeight, List.lookup,
      List.replicate]
    all_goals norm_num [max_def, min_def]
  exact ⟨hv, C3_move_validity_and_effect.2.2 gBase ⟨3, 2⟩ hv⟩

/-- An order that is delivered 10 seconds into a 100-second window. -/
def oC4 : Order :=
  { id := "C4", pickup := ⟨0, 0⟩, dropoff := ⟨2, 2⟩, payout := 100
    duration_minutes := 5/3, weight := 1, priority := 0, release_time := 0
    status := "picked_up", created_at := 0 }

/-- Reputation 70, carrying `oC4`, 10 seconds after its creation. -/
def gC4 : Game :=
  { gBase with
    reputation := 70
    game_time := 10
    inventory := [oC4] }

/-- C4.  Delivery reputation tiers: the reputation delta computed by
`deliver_order` equals the spec's strict-boundary tier table for every
`timeRemaining`/`totalDuration`, and the concrete scenario (reputation
70, duration 100 s, timeUsed 10 s) yields reputation 75. -/
theorem C4_delivery_reputation_tiers :
    (∀ timeRemaining totalDuration : ℚ,
      (deliverRepChange timeRemaining totalDuration).1 =
        specRepDelta timeRemaining totalDuration)
    ∧ (deliver_order gC4 oC4).reputation = 75 := by
  constructor
  · intro tr d
    have h08 : (d * 0.8 < tr) = (0.8 * d < tr) := by rw [mul_comm]
    have h03 : (d * 0.3 < tr) = (0.3 * d < tr) := by rw [mul_comm]
    simp only [deliverRepChange, specRepDelta, h08, h03]
    by_cases h1 : 0.8 * d < tr <;> by_cases h2 : 0.3 * d < tr <;> by_cases h3 : 0 < tr <;>
      by_cases h4 : d - tr ≤ 30 <;> by_cases h6 : 30 < d - tr <;> by_cases h5 : d - tr ≤ 120 <;>
      simp [h1, h2, h3, h4, h5, h6] <;> linarith
  · simp [deliver_order, get_order_time_remaining, deliverRepChange, gC4, oC4, gBase,
      wsClear, streetLegend, pyInt]
    norm_num [max_def, min_def]

/-- C10.  The ≥90-reputation 5% payout bonus is decided on the
reputation after the delivery's delta and streak bonus: crossing up to
≥90 earns `⌊payout × 1.05⌋`, dropping below 90 earns only the base
payout. -/
theorem C10_payout_bonus_uses_updated_reputation :
    ∀ (g : Game) (o : Order), 0 ≤ o.payout →
      (g.reputation < 90 → 90 ≤ (deliver_order g o).reputation →
        (deliver_order g o).money = g.money + ⌊(o.payout : ℚ) * 1.05⌋)
      ∧ (90 ≤ g.reputation → (deliver_order g o).reputation < 90 →
        (deliver_order g o).money = g.money + o.payout) := by
  intro g o hp
  simp only [deliver_order, pyInt]
  constructor
  · intro _ hafter
    split_ifs at hafter ⊢ with h1 h2 <;>
      first
      | rfl
      | omega
      | (exfalso; exact absurd (mul_nonneg (Int.cast_nonneg.mpr hp)
          (by norm_num : (0:ℚ) ≤ 1.05)) (by assumption))
  · intro _ hafter
    split_ifs at hafter ⊢ <;> first | rfl | omega

/-- A short order that is delivered late (rep delta −2, not clean). -/
def oLate : Order :=
  { id := "L", pickup := ⟨0, 0⟩, dropoff := ⟨2, 2⟩, payout := 10
    duration_minutes := 1/3, weight := 1, priority := 0, release_time := 0
    status := "picked_up", created_at := 0 }

/-- Reputation 88, about to make a very early delivery. -/
def gRep88 : Game :=
  { gBase with
    reputation := 88
    game_time := 10
    inventory := [oC4]
    last_delivery_was_clean := false }

/-- Reputation 90, about to make a −10 delivery (halving disabled by an
already-consumed session reduction). -/
def gRep90 : Game :=
  { gBase with
    reputation := 90
    game_time := 15
    inventory := [oLate]
    first_late_penalty_applied := true
    last_delivery_was_clean := true }

/-- Witness for `C10_payout_bonus_uses_updated_reputation`: a delivery
raising reputation 88 → 93 credits `⌊100 × 1.05⌋ = 105`, and a delivery
dropping reputation 90 → 85 credits only the base payout 10. -/
theorem C10_payout_bonus_witness :
    (deliver_order gRep88 oC4).money = gRep88.money + ⌊((100 : ℤ) : ℚ) * 1.05⌋
    ∧ (deliver_order gRep90 oLate).money = gRep90.money + 10 := by
  refine ⟨?_, ?_⟩
  · exact (C10_payout_bonus_uses_updated_reputation gRep88 oC4 (by norm_num [oC4])).1
      (by norm_num [gRep88, gBase])
      (by simp [deliver_order, get_order_time_remaining, deliverRepChange, gRep88, oC4,
          gBase, wsClear, streetLegend, pyInt]
          norm_num [max_def, min_def])
  · exact (C10_payout_bonus_uses_updated_reputation gRep90 oLate (by norm_num [oLate])).2
      (by norm_num [gRep90, gBase])
      (by simp [deliver_order, get_order_time_remaining, deliverRepChange, gRep90, oLate,
          gBase, wsClear, streetLegend, pyInt]
          norm_num [max_def, min_def])

/-- A clean (+5) order delivered 10 seconds into a 100-second window. -/
def oClean (n : String) : Order :=
  { id := n, pickup := ⟨0, 0⟩, dropoff := ⟨2, 2⟩, payout := 10
    duration_minutes := 5/3, weight := 1, priority := 0, release_time := 0
    status := "picked_up", created_at := 5 }

/-- Reputation 70, carrying one late order and four clean ones. -/
def gC5 : Game :=
  { gBase with
    reputation := 70
    game_time := 15
    inventory := [oLate, oClean ("A"), oClean ("B"), oClean ("C"), oClean ("D")] }

/-- State after the non-clean (−2) delivery. -/
def gC5a : Game := deliver_order gC5 oLate

/-- State after the first clean delivery following the non-clean one. -/
def gC5b : Game := deliver_order gC5a (oClean ("A"))

/-- State after the second consecutive clean delivery. -/
def gC5c : Game := deliver_order gC5b (oClean ("B"))

/-- State after the third consecutive clean delivery. -/
def gC5d : Game := deliver_order gC5c (oClean ("C"))

/-- State after a fourth consecutive clean delivery. -/
def gC5e : Game := deliver_order gC5d (oClean ("D"))

lemma gC5a_eq : gC5a =
    { gBase with
      reputation := 68
      game_time := 15
      inventory := [oClean ("A"), oClean ("B"), oClean ("C"), oClean ("D")]
      money := 10
      delivery_streak := 0
      last_delivery_was_clean := false
      completed_orders := [{ oLate with status := "delivered" }] } := by
  rw [gC5a, gC5]
  simp [deliver_order, get_order_time_remaining, deliverRepChange, oLate, oClean,
    gBase, wsClear, streetLegend, pyInt, List.erase]
  all_goals norm_num [max_def, min_def]

lemma gC5b_eq : gC5b =
    { gBase with
      reputation := 73
      game_time := 15
      inventory := [oClean ("B"), oClean ("C"), oClean ("D")]
      money := 20
      delivery_streak := 0
      last_delivery_was_clean := true
      completed_orders := [{ oLate with status := "delivered" },
        { oClean ("A") with status := "delivered" }] } := by
  rw [gC5b, gC5a_eq]
  simp [deliver_order, get_order_time_remaining, deliverRepChange, oLate, oClean,
    gBase, wsClear, streetLegend, pyInt, List.erase]
  all_goals norm_num [max_def, min_def]

lemma gC5c_eq : gC5c =
    { gBase with
      reputation := 78
      game_time := 15
      inventory := [oClean ("C"), oClean ("D")]
      money := 30
      delivery_streak := 1
      last_delivery_was_clean := true
      completed_orders := [{ oLate with status := "delivered" },
        { oClean ("A") with status := "delivered" },
        { oClean ("B") with status := "delivered" }] } := by
  rw [gC5c, gC5b_eq]
  simp [deliver_order, get_order_time_remaining, deliverRepChange, oLate, oClean,
    gBase, wsClear, streetLegend, pyInt, List.erase]
  all_goals norm_num [max_def, min_def]

lemma gC5d_eq : gC5d =
    { gBase with
      reputation := 83
      game_time := 15
      inventory := [oClean ("D")]
      money := 40
      delivery_streak := 2
      last_delivery_was_clean := true
      completed_orders := [{ oLate with status := "delivered" },
        { oClean ("A") with status := "delivered" },
        { oClean ("B") with status := "delivered" },
        { oClean ("C") with status := "delivered" }] } := by
  rw [gC5d, gC5c_eq]
  simp [deliver_order, get_order_time_remaining, deliverRepChange, oLate, oClean,
    gBase, wsClear, streetLegend, pyInt, List.erase]
  all_goals norm_num [max_def, min_def]

lemma gC5e_eq : gC5e =
    { gBase with
      reputation := 90
      game_time := 15
      inventory := []
      money := 50
      delivery_streak := 0
      last_delivery_was_clean := true
      completed_orders := [{ oLate with status := "delivered" },
        { oClean ("A") with status := "delivered" },
        { oClean ("B") with status := "delivered" },
        { oClean ("C") with status := "delivered" },
        { oClean ("D") with status := "delivered" }] } := by
  rw [gC5e, gC5d_eq]
  simp [deliver_order, get_order_time_remaining, deliverRepChange, oLate, oClean,
    gBase, wsClear, streetLegend, pyInt, List.erase]
  all_goals norm_num [max_def, min_def]

/-- A clean delivery never has a negative reputation delta, so the
≥85-reputation halving rule never fires on it. -/
lemma clean_delta_nonneg (tr d : ℚ) (h : (deliverRepChange tr d).2 = true) :
    0 ≤ (deliverRepChange tr d).1 := by
  simp only [deliverRepChange] at h ⊢
  split_ifs at h ⊢ <;> simp_all

/-- C5 counterexample.  After the non-clean delivery `gC5a`
(streak 0, last-delivery flag false), the next delivery is clean
(delta +5) yet the streak counter does not increment, and three
consecutive clean deliveries end with the counter at 2 and reputation
raised by exactly the sum of the deltas (15), with no +2 bonus —
refuting both "every clean delivery increments the streak counter" and
"any three consecutive clean deliveries yield the sum of their deltas
plus 2 with the counter at 0". -/
theorem C5_clean_streak_counterexample :
    (deliverRepChange (get_order_time_remaining gC5a (oClean ("A")))
        ((oClean ("A")).duration_minutes * 60)) = (5, true)
    ∧ gC5a.delivery_streak = 0
    ∧ gC5b.delivery_streak = 0
    ∧ gC5d.delivery_streak = 2
    ∧ gC5d.reputation = gC5a.reputation + 15 := by
  refine ⟨?_, ?_, ?_, ?_, ?_⟩ <;>
    · simp [gC5a_eq, gC5b_eq, gC5d_eq, get_order_time_remaining, deliverRepChange,
        oClean, gBase, wsClear, streetLegend]
      all_goals norm_num [max_def, min_def]

/-- C5 amended.  A delivery increments the streak only when both it and
the previous delivery were clean; reaching 3 grants +2 (clamped at 100)
and resets the counter; a clean delivery after a non-clean one merely
re-arms the flag without incrementing; a non-clean delivery resets
counter and flag.  Hence three consecutive clean deliveries add their
deltas plus 2 only when they follow a clean delivery — as in the
concrete run from `gC5b` (last delivery clean, streak 0), where three
cleans give +17 = 5+5+5+2 and counter 0. -/
theorem C5_streak_amended :
    (∀ (g : Game) (o : Order),
      (deliverRepChange (get_order_time_remaining g o) (o.duration_minutes * 60)).2 = true →
      g.last_delivery_was_clean = true →
      (deliver_order g o).delivery_streak =
          (if g.delivery_streak + 1 = 3 then 0 else g.delivery_streak + 1)
        ∧ (deliver_order g o).last_delivery_was_clean = true
        ∧ (deliver_order g o).reputation =
            (if g.delivery_streak + 1 = 3
             then min 100 (max 0 (min 100 (g.reputation +
               (deliverRepChange (get_order_time_remaining g o)
                 (o.duration_minutes * 60)).1)) + 2)
             else max 0 (min 100 (g.reputation +
               (deliverRepChange (get_order_time_remaining g o)
                 (o.duration_minutes * 60)).1))))
    ∧ (∀ (g : Game) (o : Order),
      (deliverRepChange (get_order_time_remaining g o) (o.duration_minutes * 60)).2 = true →
      g.last_delivery_was_clean = false →
      (deliver_order g o).delivery_streak = g.delivery_streak
        ∧ (deliver_order g o).last_delivery_was_clean = true)
    ∧ (∀ (g : Game) (o : Order),
      (deliverRepChange (get_order_time_remaining g o) (o.duration_minutes * 60)).2 = false →
      (deliver_order g o).delivery_streak = 0
        ∧ (deliver_order g o).last_delivery_was_clean = false)
    ∧ (gC5e.reputation = gC5b.reputation + 17 ∧ gC5e.delivery_streak = 0) := by
  refine ⟨?_, ?_, ?_, ?_⟩
  · intro g o hclean hlast
    have hnn := clean_delta_nonneg _ _ hclean
    simp [deliver_order, hclean, hlast, not_lt.mpr hnn]
    split_ifs <;> simp
  · intro g o hclean hlast
    have hnn := clean_delta_nonneg _ _ hclean
    simp [deliver_order, hclean, hlast, not_lt.mpr hnn]
  · intro g o hclean
    simp [deliver_order, hclean]
  · rw [gC5e_eq, gC5b_eq]
    norm_num

/-- Witness for `C5_streak_amended`: the three hypothesis-bearing parts
applied at the concrete states of the delivery chain. -/
theorem C5_streak_amended_witness :
    ((deliver_order gC5b (oClean ("B"))).delivery_streak =
        (if gC5b.delivery_streak + 1 = 3 then 0 else gC5b.delivery_streak + 1))
    ∧ (deliver_order gC5a (oClean ("A"))).delivery_streak = gC5a.delivery_streak
    ∧ (deliver_order gC5 oLate).delivery_streak = 0 := by
  refine ⟨?_, ?_, ?_⟩
  · exact (C5_streak_amended.1 gC5b (oClean ("B"))
      (by simp [gC5b_eq, get_order_time_remaining, deliverRepChange, oClean, gBase,
            wsClear, streetLegend]
          all_goals norm_num [max_def, min_def])
      (by simp [gC5b_eq])).1
  · exact (C5_streak_amended.2.1 gC5a (oClean ("A"))
      (by simp [gC5a_eq, get_order_time_remaining, deliverRepChange, oClean, gBase,
            wsClear, streetLegend]
          all_goals norm_num [max_def, min_def])
      (by simp [gC5a_eq])).1
  · exact (C5_streak_amended.2.2.1 gC5 oLate
      (by simp [gC5, get_order_time_remaining, deliverRepChange, oLate, gBase,
            wsClear, streetLegend]
          all_goals norm_num [max_def, min_def])).1

/-- An already-expired available order. -/
def oExpired (n : String) : Order :=
  { id := n, pickup := ⟨1, 1⟩, dropoff := ⟨1, 1⟩, payout := 10
    duration_minutes := 1/60, weight := 1, priority := 0, release_time := 0
    status := "available", created_at := 0 }

/-- Reputation 22 with four expired orders in the active container. -/
def gC2 : Game :=
  { gBase with
    reputation := 22
    game_time := 100
    available_orders :=
      [oExpired ("E1"), oExpired ("E2"), oExpired ("E3"), oExpired ("E4")] }

/-- C2.  The expiry sweep applies −6 per expired order with no clamp:
from the reachable reputation 22, one sweep over four simultaneously
expired orders leaves reputation −2, outside [0,100].  (The delivery
path clamps with `max(0, min(100, …))`; `_check_expired_orders` does
not.) -/
theorem C2_expiry_sweep_breaks_reputation_floor :
    gC2.reputation = 22
    ∧ (check_expired_orders gC2).reputation = -2
    ∧ ¬(0 ≤ (check_expired_orders gC2).reputation) := by
  refine ⟨rfl, ?_, ?_⟩ <;>
    · simp [check_expired_orders, get_order_time_remaining, gC2, oExpired, gBase,
        wsClear, streetLegend, List.erase, List.filter]
      all_goals norm_num [max_def, min_def]

/-- Stamina 5: strictly between 0 and 30, e.g. one second of passive
regeneration (+5/s) after hitting 0. -/
def gC1 : Game := { gBase with stamina := 5 }

/-- The same state at stamina 0 (exhausted). -/
def gC1exhausted : Game := { gBase with stamina := 0 }

/-- C1.  The exhaustion hysteresis is not enforced by the code: at
stamina 0 speed is 0 and a move command is a no-op, but at stamina 5 —
strictly between 0 and 30, as after regenerating from 0 — a move
command is accepted and the position changes, contradicting the
block-until-30 rule stated by the spec and by the source's own
comments and messages (`is_valid_move` only tests `stamina <= 0`; the
effective `handle_input` at line 3077 only blocks at `stamina <= 0`). -/
theorem C1_exhaustion_hysteresis_not_enforced :
    0 < gC1.stamina ∧ gC1.stamina < 30
    ∧ is_valid_move gC1 ⟨3, 2⟩ = true
    ∧ (handle_input gC1 1 (1, 0)).player_pos = ⟨3, 2⟩
    ∧ (handle_input gC1 1 (1, 0)).stamina = 4.5
    ∧ calculate_actual_speed gC1exhausted = 0
    ∧ handle_input gC1exhausted 1 (1, 0) = gC1exhausted := by
  refine ⟨by norm_num [gC1, gBase], by norm_num [gC1, gBase], ?_, ?_, ?_, ?_, ?_⟩ <;>
    · simp [handle_input, is_valid_move, move_player, calculate_actual_speed,
        get_speed_multiplier, SPEED_MULTIPLIERS, gC1, gC1exhausted, gBase, wsClear,
        streetLegend, tileBlockedAt, tileTypeAt, legendGet, calculate_stamina_cost,
        surfaceWeightAt, totalWeight, List.lookup, List.replicate]
      all_goals norm_num [max_def, min_def]

/-- C9.  Persistence round-trip: saving a complete game state to a slot
and loading that slot returns precisely the saved state — hence its
player position, stamina, reputation, money, and full map description
(dimensions, tiles, legend).  The `goal ≠ 0` hypothesis rules out the
`ZeroDivisionError` in the metadata completion percentage (the engine's
goal is a positive constant). -/
theorem C9_save_load_round_trip :
    ∀ (store : SaveStore) (gs : GameState) (slot : ℕ) (now : ℚ),
      gs.goal ≠ 0 →
      load_game_with_validation
        (save_game_with_validation store gs slot now).1 slot = some gs := by
  intro store gs slot now hgoal
  unfold save_game_with_validation load_game_with_validation
  rw [if_neg hgoal]
  simp [List.lookup]

/-- The binary-search loop never returns an index beyond `right`. -/
lemma bsearchLoop_le (prios : List ℤ) (p : ℤ) :
    ∀ (fuel left right : ℕ), left ≤ right → bsearchLoop prios p fuel left right ≤ right := by
  intro fuel
  induction fuel with
  | zero => intro left right h; simpa [bsearchLoop] using h
  | succ n ih =>
    intro left right h
    simp only [bsearchLoop]
    split_ifs with hlr hmid
    · have hm1 : left ≤ (left + right) / 2 := by omega
      have hm2 : (left + right) / 2 ≤ right := by omega
      exact le_trans (ih left _ hm1) hm2
    · have hm : (left + right) / 2 + 1 ≤ right := by omega
      exact ih _ right hm
    · exact h

/-- Enqueue grows the container by exactly one item. -/
lemma pq_enqueue_length (items : List Order) (item : Order) :
    (pq_enqueue items item).length = items.length + 1 := by
  unfold pq_enqueue
  split_ifs with h
  · simp [h]
  · rw [List.length_insertIdx _ _ (by
      simpa using bsearchLoop_le (items.map (·.priority)) item.priority
        items.length 0 items.length (Nat.zero_le _))]

/-- Membership in the container after an enqueue. -/
lemma pq_enqueue_mem (items : List Order) (item o : Order) :
    o ∈ pq_enqueue items item ↔ o = item ∨ o ∈ items := by
  unfold pq_enqueue
  split_ifs with h
  · simp [h]
  · exact List.mem_insertIdx (by
      simpa using bsearchLoop_le (items.map (·.priority)) item.priority
        items.length 0 items.length (Nat.zero_le _))

/-- Relocating pickup/dropoff does not change an order's release time. -/
lemma fix_release_time (g : Game) (o : Order) :
    (fix_order_positions g o).release_time = o.release_time := by
  simp only [fix_order_positions]
  split_ifs <;> rfl

/-- Releasing an order does not change its release time. -/
lemma releaseOrder_release_time (g : Game) (o : Order) :
    (releaseOrder g o).release_time = o.release_time := by
  simp only [releaseOrder]
  split_ifs <;> simp [fix_release_time]

/-- Invariants of the release loop: the released count is bounded by
the budget, the active container grows by exactly that count, the
active count never exceeds `max active 10`, and every new item in the
container was due. -/
lemma releaseLoop_spec (g : Game) :
    ∀ (pending avail : List Order) (active budget : ℕ),
      (releaseLoop g pending avail active budget).2.2 ≤ budget
      ∧ (releaseLoop g pending avail active budget).2.1.length
          = avail.length + (releaseLoop g pending avail active budget).2.2
      ∧ active + (releaseLoop g pending avail active budget).2.2 ≤ max active 10
      ∧ (∀ o ∈ (releaseLoop g pending avail active budget).2.1,
          o ∈ avail ∨ (o.release_time : ℚ) ≤ g.game_time) := by
  intro pending
  induction pending with
  | nil =>
    intro avail active budget
    cases budget <;> simp [releaseLoop] <;> exact fun o ho => Or.inl ho
  | cons o rest ih =>
    intro avail active budget
    cases budget with
    | zero =>
      simp [releaseLoop]
      exact fun o ho => Or.inl ho
    | succ b =>
      rw [releaseLoop]
      split_ifs with hc
      · have ho2rel : ((releaseOrder g o).release_time : ℚ) ≤ g.game_time := by
          rw [releaseOrder_release_time]
          exact hc.1
        obtain ⟨h1, h2, h3, h4⟩ := ih (pq_enqueue avail (releaseOrder g o)) (active + 1) b
        refine ⟨by simpa using Nat.add_le_add_right h1 1, ?_, ?_, ?_⟩
        · simp only
          rw [h2, pq_enqueue_length]
          omega
        · simp only
          omega
        · intro x hx
          rcases h4 x hx with hmem | hdue
          · rcases (pq_enqueue_mem avail (releaseOrder g o) x).mp hmem with rfl | hmem2
            · exact Or.inr ho2rel
            · exact Or.inl hmem2
          · exact Or.inr hdue
      · refine ⟨by simp, by simp, by simp, fun x hx => Or.inl hx⟩

/-- The active container is sorted in descending priority order. -/
def SortedDesc (l : List Order) : Prop :=
  l.Pairwise (fun a b => b.priority ≤ a.priority)

lemma prioAt (items : List Order) {j : ℕ} (h : j < items.length) :
    (items.map (·.priority)).getD j 0 = (items.get ⟨j, h⟩).priority := by
  rw [List.getD_eq_getElem _ _ (by simpa using h), List.getElem_map, List.get_eq_getElem]

lemma sortedDesc_mono {items : List Order} (hs : SortedDesc items)
    {i j : ℕ} (hi : i < items.length) (hj : j < items.length) (hij : i ≤ j) :
    (items.get ⟨j, hj⟩).priority ≤ (items.get ⟨i, hi⟩).priority := by
  rcases Nat.lt_or_ge i j with hlt | hge
  · exact List.pairwise_iff_get.mp hs ⟨i, hi⟩ ⟨j, hj⟩ hlt
  · have : i = j := le_antisymm hij hge
    subst this
    exact le_refl _

/-- Characterisation of the binary-search insertion point on a
descending-sorted container: everything before it has priority ≥ the
new item's, everything from it on has strictly smaller priority. -/
lemma bsearchLoop_char (items : List Order) (p : ℤ) (hsort : SortedDesc items) :
    ∀ (fuel left right : ℕ), right - left ≤ fuel → left ≤ right → right ≤ items.length →
      (∀ (j : ℕ) (h : j < items.length), j < left → p ≤ (items.get ⟨j, h⟩).priority) →
      (∀ (j : ℕ) (h : j < items.length), right ≤ j → (items.get ⟨j, h⟩).priority < p) →
      (∀ (j : ℕ) (h : j < items.length),
          j < bsearchLoop (items.map (·.priority)) p fuel left right →
          p ≤ (items.get ⟨j, h⟩).priority)
      ∧ (∀ (j : ℕ) (h : j < items.length),
          bsearchLoop (items.map (·.priority)) p fuel left right ≤ j →
          (items.get ⟨j, h⟩).priority < p) := by
  intro fuel
  induction fuel with
  | zero =>
    intro left right hfuel hlr hrlen hinv1 hinv2
    have heq : left = right := by omega
    subst heq
    simp only [bsearchLoop]
    exact ⟨hinv1, fun j h hj => hinv2 j h hj⟩
  | succ n ih =>
    intro left right hfuel hlr hrlen hinv1 hinv2
    simp only [bsearchLoop]
    split_ifs with hlt hmid
    · have hmlen : (left + right) / 2 < items.length := by omega
      refine ih left ((left + right) / 2) (by omega) (by omega) (by omega) hinv1 ?_
      intro j h hj
      calc (items.get ⟨j, h⟩).priority
          ≤ (items.get ⟨(left + right) / 2, hmlen⟩).priority :=
            sortedDesc_mono hsort hmlen h hj
        _ < p := by rw [← prioAt items hmlen]; exact hmid
    · have hmlen : (left + right) / 2 < items.length := by omega
      refine ih ((left + right) / 2 + 1) right (by omega) (by omega) hrlen ?_ hinv2
      intro j h hj
      calc p ≤ (items.get ⟨(left + right) / 2, hmlen⟩).priority := by
            rw [← prioAt items hmlen]; exact not_lt.mp hmid
        _ ≤ (items.get ⟨j, h⟩).priority := sortedDesc_mono hsort h hmlen (by omega)
    · have heq : left = right := by omega
      subst heq
      exact ⟨hinv1, fun j h hj => hinv2 j h hj⟩

lemma insertIdx_eq_take_cons_drop :
    ∀ (n : ℕ) (l : List Order) (a : Order), n ≤ l.length →
      l.insertIdx n a = l.take n ++ a :: l.drop n := by
  intro n
  induction n with
  | zero => intro l a _; simp
  | succ m ih =>
    intro l a h
    cases l with
    | nil => simp at h
    | cons x xs =>
      simp only [List.insertIdx_succ_cons, List.take, List.drop, List.cons_append]
      rw [ih xs a (by simpa using h)]

/-- Binary insertion keeps the container sorted descending. -/
lemma pq_enqueue_sorted (items : List Order) (item : Order) (hs : SortedDesc items) :
    SortedDesc (pq_enqueue items item) := by
  unfold pq_enqueue
  split_ifs with h
  · simp [SortedDesc]
  · set ix := bsearchLoop (items.map (·.priority)) item.priority items.length 0
      items.length with hix
    have hle : ix ≤ items.length := by
      rw [hix]
      exact bsearchLoop_le _ _ items.length 0 items.length (Nat.zero_le _)
    obtain ⟨hleft, hright⟩ := bsearchLoop_char items item.priority hs items.length 0
      items.length (by omega) (by omega) le_rfl
      (fun j h hj => absurd hj (Nat.not_lt_zero j))
      (fun j h hj => absurd h (by omega))
    rw [insertIdx_eq_take_cons_drop ix items item hle]
    unfold SortedDesc
    rw [List.pairwise_append]
    refine ⟨hs.sublist (List.take_sublist ix items), ?_, ?_⟩
    · rw [List.pairwise_cons]
      refine ⟨?_, hs.sublist (List.drop_sublist ix items)⟩
      intro b hb
      obtain ⟨k, hk, hbk⟩ := List.mem_iff_getElem.mp hb
      have hklen : ix + k < items.length := by
        simp only [List.length_drop] at hk
        omega
      have hbval : b = items.get ⟨ix + k, hklen⟩ := by
        rw [← hbk, List.getElem_drop, List.get_eq_getElem]
      rw [hbval]
      exact le_of_lt (hright (ix + k) hklen (Nat.le_add_right _ _))
    · intro x hx y hy
      obtain ⟨k, hk, hxk⟩ := List.mem_iff_getElem.mp hx
      have hkix : k < ix := by
        simp only [List.length_take] at hk
        omega
      have hklen : k < items.length := by omega
      have hxval : x = items.get ⟨k, hklen⟩ := by
        rw [← hxk, List.getElem_take, List.get_eq_getElem]
      have hpx : item.priority ≤ x.priority := by
        rw [hxval]
        exact hleft k hklen hkix
      rcases List.mem_cons.mp hy with rfl | hy2
      · exact hpx
      · obtain ⟨m, hm, hym⟩ := List.mem_iff_getElem.mp hy2
        have hmlen : ix + m < items.length := by
          simp only [List.length_drop] at hm
          omega
        have hyval : y = items.get ⟨ix + m, hmlen⟩ := by
          rw [← hym, List.getElem_drop, List.get_eq_getElem]
        rw [hyval]
        exact le_of_lt (lt_of_lt_of_le
          (hright (ix + m) hmlen (Nat.le_add_right _ _)) hpx)

/-- One operation on the active container: enqueue, dequeue, or
remove-by-identity. -/
inductive QOp where
  | enq : Order → QOp
  | deq : QOp
  | rem : Order → QOp

/-- Apply one container operation to the item list. -/
def pq_step (items : List Order) : QOp → List Order
  | QOp.enq o => pq_enqueue items o
  | QOp.deq => (pq_dequeue items).2
  | QOp.rem o => pq_remove items o

/-- Run a sequence of container operations from the empty container. -/
def runOps (ops : List QOp) : List Order :=
  ops.foldl pq_step []

lemma pq_step_sorted (items : List Order) (op : QOp) (hs : SortedDesc items) :
    SortedDesc (pq_step items op) := by
  cases op with
  | enq o => exact pq_enqueue_sorted items o hs
  | deq => exact hs.sublist (by simpa [pq_dequeue] using List.tail_sublist items)
  | rem o => exact hs.sublist (List.erase_sublist o items)

lemma foldl_pq_step_sorted :
    ∀ (ops : List QOp) (items : List Order), SortedDesc items →
      SortedDesc (List.foldl pq_step items ops) := by
  intro ops
  induction ops with
  | nil => intro items hs; simpa using hs
  | cons op rest ih =>
    intro items hs
    exact ih (pq_step items op) (pq_step_sorted items op hs)

lemma sortedDesc_head_max (l : List Order) (hs : SortedDesc l) (o : Order) (ho : o ∈ l) :
    ∃ front, l.head? = some front ∧ o.priority ≤ front.priority := by
  cases l with
  | nil => cases ho
  | cons a t =>
    refine ⟨a, rfl, ?_⟩
    rcases List.mem_cons.mp ho with rfl | ht
    · exact le_refl _
    · exact (List.pairwise_cons.mp hs).1 o ht

/-- C7.  Active-order container invariant: after any sequence of
enqueue / dequeue / remove operations starting from the empty
container, the item list is sorted in descending priority order, and
dequeue on a non-empty container returns the front item, which has
maximum priority. -/
theorem C7_priority_queue_invariant :
    ∀ ops : List QOp,
      SortedDesc (runOps ops)
      ∧ ∀ o ∈ runOps ops, ∃ front,
          (pq_dequeue (runOps ops)).1 = some front ∧ o.priority ≤ front.priority := by
  intro ops
  have hs : SortedDesc (runOps ops) :=
    foldl_pq_step_sorted ops [] (by simp [SortedDesc])
  exact ⟨hs, fun o ho => sortedDesc_head_max (runOps ops) hs o ho⟩

/-- An order with the given id and priority for the queue witness. -/
def oQ (n : String) (p : ℤ) : Order :=
  { id := n, pickup := ⟨0, 0⟩, dropoff := ⟨1, 1⟩, payout := 10
    duration_minutes := 1, weight := 1, priority := p, release_time := 0 }

/-- Witness for `C7_priority_queue_invariant`: after three enqueues the
dequeue front has priority at least that of a concrete member. -/
theorem C7_priority_queue_invariant_witness :
    ∃ front,
      (pq_dequeue (runOps [QOp.enq (oQ ("a") 0), QOp.enq (oQ ("b") 2),
        QOp.enq (oQ ("c") 1)])).1 = some front
      ∧ (oQ ("c") 1).priority ≤ front.priority := by
  refine (C7_priority_queue_invariant
    [QOp.enq (oQ ("a") 0), QOp.enq (oQ ("b") 2), QOp.enq (oQ ("c") 1)]).2
    (oQ ("c") 1) ?_
  simp [runOps, pq_step, pq_enqueue, bsearchLoop, List.insertIdx, oQ]

/-- A due pending order (release time 0). -/
def oP (n : String) : Order :=
  { id := n, pickup := ⟨1, 1⟩, dropoff := ⟨3, 3⟩, payout := 10
    duration_minutes := 1, weight := 1, priority := 0, release_time := 0 }

/-- Twelve due pending orders, empty active container. -/
def gC6 : Game :=
  { gBase with
    pending_orders := [oP ("01"), oP ("02"), oP ("03"), oP ("04"), oP ("05"), oP ("06"),
      oP ("07"), oP ("08"), oP ("09"), oP ("10"), oP ("11"), oP ("12")] }

/-- C6.  Scheduler release throttling: with the cap at 10, the batch
size is 3 below `10 // 3`, 2 below `10 // 2`, 1 below the cap and 0 at
the cap; each tick releases at most that many orders, all of them due
(release time ≤ game time), and never pushes the active count past the
cap; with 12 due pending orders and 0 active, the first tick releases
exactly 3. -/
theorem C6_scheduler_release_throttling :
    (∀ n : ℕ, n < 10 / 3 → releaseBatchSize n = 3)
    ∧ (∀ n : ℕ, 10 / 3 ≤ n → n < 10 / 2 → releaseBatchSize n = 2)
    ∧ (∀ n : ℕ, 10 / 2 ≤ n → n < 10 → releaseBatchSize n = 1)
    ∧ (∀ n : ℕ, 10 ≤ n → releaseBatchSize n = 0)
    ∧ (∀ g : Game,
        (process_order_releases g).available_orders.length
          ≤ g.available_orders.length + releaseBatchSize g.available_orders.length
        ∧ (process_order_releases g).available_orders.length
            ≤ max g.available_orders.length 10
        ∧ ∀ o ∈ (process_order_releases g).available_orders,
            o ∈ g.available_orders ∨ (o.release_time : ℚ) ≤ g.game_time)
    ∧ (gC6.pending_orders.length = 12 ∧ gC6.available_orders.length = 0
        ∧ (process_order_releases gC6).available_orders.length = 3
        ∧ (process_order_releases gC6).pending_orders.length = 9) := by
  refine ⟨?_, ?_, ?_, ?_, ?_, ?_⟩
  · intro n hn
    unfold releaseBatchSize
    rw [if_pos hn]
  · intro n hn1 hn2
    unfold releaseBatchSize
    rw [if_neg (by omega), if_pos hn2]
  · intro n hn1 hn2
    unfold releaseBatchSize
    rw [if_neg (by omega), if_neg (by omega), if_pos hn2]
  · intro n hn
    unfold releaseBatchSize
    rw [if_neg (by omega), if_neg (by omega), if_neg (by omega)]
  · intro g
    obtain ⟨h1, h2, h3, h4⟩ :=
      releaseLoop_spec g g.pending_orders g.available_orders
        g.available_orders.length (releaseBatchSize g.available_orders.length)
    refine ⟨?_, ?_, ?_⟩
    · simp only [process_order_releases]
      omega
    · simp only [process_order_releases]
      omega
    · intro o ho
      exact h4 o (by simpa [process_order_releases] using ho)
  · refine ⟨rfl, rfl, ?_, ?_⟩ <;>
      · simp [process_order_releases, releaseLoop, releaseBatchSize, releaseOrder,
          pq_enqueue, bsearchLoop, validate_order_positions, is_position_walkable,
          fix_order_positions, tileTypeAt, legendGet, List.insertIdx, gC6, oP, gBase,
          streetLegend, wsClear, List.lookup]
        all_goals norm_num

/-- Witness for `C6_scheduler_release_throttling`: concrete tier values
and a concrete released order shown to be due. -/
theorem C6_scheduler_release_throttling_witness :
    releaseBatchSize 0 = 3 ∧ releaseBatchSize 4 = 2 ∧ releaseBatchSize 7 = 1
    ∧ releaseBatchSize 12 = 0
    ∧ (releaseOrder gC6 (oP ("01")) ∈ gC6.available_orders
        ∨ ((releaseOrder gC6 (oP ("01"))).release_time : ℚ) ≤ gC6.game_time) := by
  refine ⟨C6_scheduler_release_throttling.1 0 (by norm_num),
    C6_scheduler_release_throttling.2.1 4 (by norm_num) (by norm_num),
    C6_scheduler_release_throttling.2.2.1 7 (by norm_num) (by norm_num),
    C6_scheduler_release_throttling.2.2.2.1 12 (by norm_num),
    (C6_scheduler_release_throttling.2.2.2.2.1 gC6).2.2 (releaseOrder gC6 (oP ("01")))
      ?_⟩
  simp [process_order_releases, releaseLoop, releaseBatchSize, releaseOrder,
    pq_enqueue, bsearchLoop, validate_order_positions, is_position_walkable,
    fix_order_positions, tileTypeAt, legendGet, List.insertIdx, gC6, oP, gBase,
    streetLegend, wsClear, List.lookup]
  all_goals norm_num

/-- Spec §4.5: the push condition — at least one of position, stamina
(|Δ| > 1.0), money, reputation differs from the base snapshot. -/
def specDiffers (base s : GameState) : Prop :=
  (base.player_pos.x ≠ s.player_pos.x ∨ base.player_pos.y ≠ s.player_pos.y)
  ∨ 1.0 < |base.stamina - s.stamina|
  ∨ base.money ≠ s.money
  ∨ base.reputation ≠ s.reputation

instance (base s : GameState) : Decidable (specDiffers base s) := by
  unfold specDiffers
  infer_instance

/-- The undo state as the amended claim describes it: diffed values
where present, base values otherwise — except `delivery_streak`, which
pop always resets to 0. -/
def specUndoState (base : GameState) (diff : HistDiff) : GameState :=
  { base with
    player_pos :=
      match diff.player_pos with
      | some c => ⟨c.1, c.2⟩
      | none => base.player_pos
    stamina := diff.stamina.getD base.stamina
    money := diff.money.getD base.money
    reputation := diff.reputation.getD base.reputation
    delivery_streak := 0 }

/-- A base snapshot with a positive delivery streak. -/
def bC8 : GameState :=
  { player_pos := ⟨2, 2⟩, stamina := 100, reputation := 70, money := 0
    game_time := 8, weather_time := 0, current_weather := "clear"
    weather_intensity := 0.5, inventory := [], available_orders := []
    completed_orders := [], goal := 3000, delivery_streak := 2
    pending_orders := [], city_width := 5, city_height := 5
    tiles := List.replicate 5 (List.replicate 5 ("C"))
    legend := streetLegend, city_name := "TigerCity", max_game_time := 600 }

/-- The same state after earning money (only `money` differs). -/
def sC8 : GameState := { bC8 with money := 50 }

/-- History after pushing the base snapshot and then `sC8`. -/
def hC8 : MemoryEfficientHistory := hist_push (hist_push {} bC8) sC8

/-- C8 counterexample.  The diff recorded for `sC8` holds only `money`,
yet the popped state does not take the base snapshot's value for the
unrecorded `delivery_streak` field: the base has streak 2 and the
reconstructed state has streak 0 (the source hard-codes
`delivery_streak=0`), refuting "fields take the diff's values where
present and the base snapshot's values otherwise". -/
theorem C8_pop_delivery_streak_counterexample :
    mkDiff bC8 sC8 = { money := some 50 }
    ∧ (hist_pop hC8).map (fun r => r.1.delivery_streak) = some 0
    ∧ (hist_pop hC8).map (fun r => r.1.money) = some 50
    ∧ bC8.delivery_streak = 2 := by
  refine ⟨?_, ?_, ?_, rfl⟩ <;>
    · simp [hC8, hist_push, hist_pop, hist_reconstruct, mkDiff, bC8, sC8]
      all_goals norm_num

/-- C8 amended.  The history keeps at most 20 diffs; given a base
snapshot, push appends the sparse diff exactly when position, stamina
(|Δ| > 1.0), money, or reputation differs from the base (dropping the
oldest entry at the bound); pop permanently removes the most recent
diff and returns the state with diffed values where present and base
values otherwise — except `delivery_streak`, which is reset to 0. -/
theorem C8_history_amended :
    (∀ (h : MemoryEfficientHistory) (s : GameState),
      h.max_size = 20 → h.diffs.length ≤ 20 → (hist_push h s).diffs.length ≤ 20)
    ∧ (∀ (h : MemoryEfficientHistory) (s : GameState) (base : GameState),
      h.base_state = some base →
      (hist_push h s).diffs =
        (if specDiffers base s
         then (if h.max_size ≤ (h.diffs ++ [mkDiff base s]).length
               then (h.diffs ++ [mkDiff base s]).tail
               else h.diffs ++ [mkDiff base s])
         else h.diffs))
    ∧ (∀ (h : MemoryEfficientHistory) (base : GameState) (ds : List HistDiff)
        (d : HistDiff),
      h.base_state = some base → h.diffs = ds ++ [d] →
      hist_pop h = some (specUndoState base d, { h with diffs := ds })) := by
  have hdiff_iff : ∀ base s : GameState,
      (mkDiff base s ≠ ({} : HistDiff)) ↔ specDiffers base s := by
    intro base s
    constructor
    · intro hne
      by_contra hnot
      unfold specDiffers at hnot
      push_neg at hnot
      obtain ⟨⟨hx, hy⟩, hs, hm, hr⟩ := hnot
      exact hne (by simp [mkDiff, hx, hy, hs, hm, hr])
    · intro hd heq
      rcases hd with hp | hs | hm | hr
      · have h2 := congrArg HistDiff.player_pos heq
        rw [mkDiff] at h2
        simp only [if_pos hp] at h2
        exact absurd h2 (by simp)
      · have h2 := congrArg HistDiff.stamina heq
        rw [mkDiff] at h2
        simp only [if_pos hs] at h2
        exact absurd h2 (by simp)
      · have h2 := congrArg HistDiff.money heq
        rw [mkDiff] at h2
        simp only [if_pos hm] at h2
        exact absurd h2 (by simp)
      · have h2 := congrArg HistDiff.reputation heq
        rw [mkDiff] at h2
        simp only [if_pos hr] at h2
        exact absurd h2 (by simp)
  refine ⟨?_, ?_, ?_⟩
  · intro h s hmax hlen
    unfold hist_push
    cases hb : h.base_state with
    | none => simpa using hlen
    | some base =>
      simp only
      have h1 : (h.diffs ++ [mkDiff base s]).length = h.diffs.length + 1 := by simp
      split_ifs with hne hfull
      · simp only [List.length_tail, h1]
        omega
      · rw [h1] at hfull
        rw [hmax] at hfull
        simp only [h1]
        omega
      · simpa using hlen
  · intro h s base hb
    unfold hist_push
    rw [hb]
    simp only
    by_cases hd : specDiffers base s
    · rw [if_pos ((hdiff_iff base s).mpr hd), if_pos hd]
    · rw [if_neg (fun hne => hd ((hdiff_iff base s).mp hne)), if_neg hd]
  · intro h base ds d hb hds
    have hrec : hist_reconstruct base d = specUndoState base d := rfl
    have hstep : hist_pop h =
        some (hist_reconstruct base d, { h with diffs := (ds ++ [d]).dropLast }) := by
      unfold hist_pop
      rw [hb, hds, List.getLast?_concat]
    rw [hstep, List.dropLast_concat, hrec]

/-- Witness for `C8_history_amended`: its three parts applied at the
concrete history `hC8`. -/
theorem C8_history_amended_witness :
    (hist_push hC8 sC8).diffs.length ≤ 20
    ∧ (hist_push (hist_push {} bC8) sC8).diffs =
        (if specDiffers bC8 sC8
         then (if (hist_push {} bC8).max_size ≤
                 ((hist_push {} bC8).diffs ++ [mkDiff bC8 sC8]).length
               then ((hist_push {} bC8).diffs ++ [mkDiff bC8 sC8]).tail
               else (hist_push {} bC8).diffs ++ [mkDiff bC8 sC8])
         else (hist_push {} bC8).diffs)
    ∧ hist_pop hC8 = some (specUndoState bC8 (mkDiff bC8 sC8),
        { hC8 with diffs := [] }) := by
  refine ⟨?_, ?_, ?_⟩
  · exact C8_history_amended.1 hC8 sC8 (by simp [hC8, hist_push, mkDiff, bC8, sC8])
      (by simp [hC8, hist_push, mkDiff, bC8, sC8]
          all_goals norm_num)
  · exact C8_history_amended.2.1 (hist_push {} bC8) sC8 bC8 (by simp [hist_push])
  · exact C8_history_amended.2.2 hC8 bC8 [] (mkDiff bC8 sC8)
      (by simp [hC8, hist_push, mkDiff, bC8, sC8]
          all_goals norm_num)
      (by simp [hC8, hist_push, mkDiff, bC8, sC8]
          all_goals norm_num)

/-- A concrete complete game state for the round-trip witness. -/
def gsW : GameState :=
  { player_pos := ⟨2, 3⟩, stamina := 77.5, reputation := 70, money := 120
    game_time := 42, weather_time := 3, current_weather := "clear"
    weather_intensity := 0.5, inventory := [], available_orders := [oC4]
    completed_orders := [], goal := 3000, delivery_streak := 1
    pending_orders := [], city_width := 5, city_height := 5
    tiles := List.replicate 5 (List.replicate 5 ("C"))
    legend := streetLegend, city_name := "TigerCity", max_game_time := 600 }

/-- Witness for `C9_save_load_round_trip` at a concrete state, slot and
clock. -/
theorem C9_save_load_round_trip_witness :
    load_game_with_validation
      (save_game_with_validation ([]) gsW 1 0).1 1 = some gsW :=
  C9_save_load_round_trip ([]) gsW 1 0 (by norm_num [gsW])

end CourierQuest
